import Mathlib

/-!
Shallow embedding of the batch dispatch engine of the sqlgpt repository:
the `RateLimiter` and the `ProcessingThread` dispatcher loop from
src/ui/main_window.py, and the `DatabaseManager` job store from
src/database/manager.py.

Modelling conventions: wall-clock instants (Python `time.time()`) are
modelled as integers, token counts as naturals, and dollar amounts as
rationals.  Python string tests are carried out on the underlying
character lists so that concrete instances evaluate inside the kernel.
The store is modelled functionally: one SQL transaction is one pure
function from store to store, which captures the all-or-nothing commit
discipline of the source.
-/

/-- One row of the `processing_jobs` table.  Modelled from the spec:
src/database/schema.py is not in the source tree, so the column set and
the column defaults (status `pending`, token_count 0, cost 0, response
and error NULL) follow section 6 of the spec, which agrees with every
SQL statement in src/database/manager.py. -/
structure Job where
  id : ℕ
  filename : String
  source_doc : String
  response : Option String
  model_name : String
  token_count : ℕ
  cost : ℚ
  status : String
  error : Option String
  batch_id : ℕ
  row_index : ℕ
  deriving DecidableEq

/-- In-memory model of the `processing_jobs` table together with the
SQLite AUTOINCREMENT counter for the `id` column. -/
structure Store where
  jobs : List Job
  next_id : ℕ
  deriving DecidableEq

/-- One `(filename, content)` pair handed to `add_batch`
(src/database/manager.py, `documents` argument). -/
structure Document where
  filename : String
  content : String
  deriving DecidableEq

/-- Cost rates per million tokens: the `self.cost_rates` table of
`DatabaseManager.__init__` (src/database/manager.py lines 17-22),
as exact rationals (input rate, output rate). -/
def cost_rates (key : String) : ℚ × ℚ :=
  if key = "o1" then (15, 60)
  else if key = "o3-mini" then (11 / 10, 22 / 5)
  else if key = "claude-3-7-sonnet-20250219" then (3, 15)
  else (15, 60)

/-- Membership test `model_name in self.cost_rates`
(src/database/manager.py line 45). -/
def in_cost_rates (m : String) : Bool :=
  m == "o1" || m == "o3-mini" || m == "claude-3-7-sonnet-20250219"

/-- Containment of a contiguous pattern in a character list, modelling
the Python `in` operator on strings. -/
def listContains (pat : List Char) : List Char → Bool
  | [] => pat.isEmpty
  | c :: cs => pat.isPrefixOf (c :: cs) || listContains pat cs

/-- Python `'claude' in model_name.lower()` (src/database/manager.py
line 41), computed on the character lists. -/
def containsClaude (s : String) : Bool :=
  listContains "claude".data (s.data.map Char.toLower)

/-- Python `model_name.startswith('o')` (src/database/manager.py
line 45), computed on the character lists. -/
def startsWithO (s : String) : Bool :=
  List.isPrefixOf "o".data s.data

/-- Key selection of `DatabaseManager.calculate_cost`
(src/database/manager.py lines 36-51): empty name falls back to `o1`,
any name containing `claude` (case-insensitively) uses the Claude key,
an OpenAI-shaped name present in the table is used as is, anything else
falls back to `o1`. -/
def model_key (model_name : String) : String :=
  if model_name = "" then "o1"
  else if containsClaude model_name then "claude-3-7-sonnet-20250219"
  else if startsWithO model_name && in_cost_rates model_name then model_name
  else "o1"

/-- Model of `DatabaseManager.calculate_cost` (src/database/manager.py
lines 24-71): rates are per 1,000,000 tokens and the total token count is
split by the estimated input ratio, default 0.7. -/
def calculate_cost (model_name : String) (token_count : ℕ)
    (input_ratio : ℚ := 7 / 10) : ℚ :=
  let rates := cost_rates (model_key model_name)
  let input_tokens : ℚ := (token_count : ℚ) * input_ratio
  let output_tokens : ℚ := (token_count : ℚ) * (1 - input_ratio)
  let input_cost := input_tokens / 1000000 * rates.1
  let output_cost := output_tokens / 1000000 * rates.2
  input_cost + output_cost

/-- Row lookup `SELECT ... FROM processing_jobs WHERE id = ?` with
`fetchone` (src/database/manager.py lines 146-150). -/
def rowById (s : Store) (job_id : ℕ) : Option Job :=
  s.jobs.find? (fun j => j.id == job_id)

/-- One `UPDATE processing_jobs SET ... WHERE id = ?` statement: every
row whose id matches is rewritten by `f`, every other row is untouched,
and the whole change is one transaction. -/
def set_row (s : Store) (job_id : ℕ) (f : Job → Job) : Store :=
  { s with jobs := s.jobs.map (fun j => if j.id == job_id then f j else j) }

/-- Model of `DatabaseManager.update_response` (src/database/manager.py
lines 140-190): look up the model name of the job; if the job id is absent,
print a warning and return with the store untouched; otherwise compute
the cost from the model name and token count and write response,
token_count, cost and status = completed in one UPDATE. -/
def update_response (s : Store) (job_id : ℕ) (response : String)
    (token_count : ℕ) : Store :=
  match rowById s job_id with
  | none => s
  | some row =>
    let cost := calculate_cost row.model_name token_count
    set_row s job_id (fun j =>
      { j with response := some response, token_count := token_count,
               cost := cost, status := "completed" })

/-- Model of `SELECT COALESCE(MAX(batch_id), 0) FROM processing_jobs`
(src/database/manager.py line 124). -/
def maxBatchId (jobs : List Job) : ℕ :=
  (jobs.map Job.batch_id).foldr max 0

/-- Model of `DatabaseManager.add_batch` (src/database/manager.py lines
118-138):
mint `COALESCE(MAX(batch_id), 0) + 1` as the fresh batch id and insert
one row per document with `row_index` running from 0, all in one
transaction serialized behind the write lock (modelled by the operation
being a single pure function). -/
def add_batch (s : Store) (documents : List Document) (model_name : String) :
    Store × ℕ :=
  let batch_id := maxBatchId s.jobs + 1
  let newJobs := documents.enum.map (fun p =>
    { id := s.next_id + p.1, filename := p.2.filename,
      source_doc := p.2.content, response := none,
      model_name := model_name, token_count := 0, cost := 0,
      status := "pending", error := none, batch_id := batch_id,
      row_index := p.1 : Job })
  ({ jobs := s.jobs ++ newJobs, next_id := s.next_id + documents.length },
   batch_id)

/-- Stable insertion used to model `ORDER BY row_index`. -/
def insertByRow (j : Job) : List Job → List Job
  | [] => [j]
  | k :: ks => if j.row_index ≤ k.row_index then j :: k :: ks
               else k :: insertByRow j ks

/-- Stable sort by `row_index`, modelling `ORDER BY row_index`. -/
def sortByRow : List Job → List Job
  | [] => []
  | j :: js => insertByRow j (sortByRow js)

/-- Model of `DatabaseManager.get_pending_jobs` (src/database/manager.py
lines 192-215): all pending rows of the batch ordered by row_index. -/
def get_pending_jobs (s : Store) (batch_id : ℕ) : List Job :=
  sortByRow (s.jobs.filter
    (fun j => j.batch_id == batch_id && j.status == "pending"))

/-- Sliding-window rate limiter state: the `RateLimiter` class of
src/ui/main_window.py lines 29-65.  The two deques are kept as lists
whose head is the oldest entry. -/
structure RateLimiter where
  requests_per_minute : ℕ
  tokens_per_minute : ℕ
  request_timestamps : List ℤ
  token_usage : List (ℤ × ℕ)
  deriving DecidableEq

/-- The 60 second window (`self.window = 60`,
src/ui/main_window.py line 35). -/
def RateLimiter.window : ℤ := 60

/-- Model of the `RateLimiter._cleanup_old_entries` loop
(src/ui/main_window.py lines 58-65): pop entries from the left while they are strictly older than
`now - 60`. -/
def RateLimiter.cleanup_old_entries (rl : RateLimiter) (now : ℤ) :
    RateLimiter :=
  { rl with
    request_timestamps :=
      rl.request_timestamps.dropWhile (fun ts => decide (ts < now - RateLimiter.window)),
    token_usage :=
      rl.token_usage.dropWhile (fun e => decide (e.1 < now - RateLimiter.window)) }

/-- Model of `RateLimiter.can_make_request` (src/ui/main_window.py lines
37-50):
purge stale entries, refuse when the request count already reached the
per-minute ceiling or when the recorded token usage plus the estimate
would exceed the token ceiling, otherwise admit.  The in-place purge of
the source is modelled by applying `cleanup_old_entries` to the state
that is inspected. -/
def RateLimiter.can_make_request (rl : RateLimiter) (now : ℤ)
    (estimated_tokens : ℕ := 1000) : Bool :=
  if (rl.cleanup_old_entries now).request_timestamps.length ≥
      rl.requests_per_minute then false
  else if ((rl.cleanup_old_entries now).token_usage.map Prod.snd).sum +
      estimated_tokens > rl.tokens_per_minute then false
  else true

/-- Model of `RateLimiter.add_request` (src/ui/main_window.py lines
52-56):
append the current instant to both deques, then purge stale entries. -/
def RateLimiter.add_request (rl : RateLimiter) (now : ℤ) (token_count : ℕ) :
    RateLimiter :=
  RateLimiter.cleanup_old_entries
    { rl with
      request_timestamps := rl.request_timestamps ++ [now],
      token_usage := rl.token_usage ++ [(now, token_count)] } now

/-- Limiter whose window is empty, as built by `RateLimiter.__init__`. -/
def RateLimiter.fresh (rpm tpm : ℕ) : RateLimiter :=
  { requests_per_minute := rpm, tokens_per_minute := tpm,
    request_timestamps := [], token_usage := [] }

/-- Repeated recording: `R` calls of `add_request`, each of `t` tokens,
all at instant `now` ("within the same second"). -/
def record_n (rl : RateLimiter) (now : ℤ) (t : ℕ) : ℕ → RateLimiter
  | 0 => rl
  | Nat.succ k => (record_n rl now t k).add_request now t

/-- Outcome of one provider call (`client.process_document`): either a
response text with its total token count, or a raised exception
message. -/
inductive ProviderResult
  | ok (response : String) (token_count : ℕ)
  | err (msg : String)
  deriving DecidableEq

/-- A provider client as the dispatcher sees it: one document in, one
result out. -/
abbrev Provider := Job → ProviderResult

/-- Python `not response or len(response.strip()) == 0`
(src/ui/main_window.py line 114), computed on the character list. -/
def isBlank (s : String) : Bool :=
  s.data.all (fun c => c.isWhitespace)

/-- Placeholder substituted for an empty provider response
(src/ui/main_window.py line 117). -/
def no_response_placeholder : String :=
  "No response was generated. Please check API configuration and try again."

/-- The direct UPDATE labelled CRITICAL FIX in
`ProcessingThread.process_document` (src/ui/main_window.py lines
127-142): recompute the cost from the thread model name and force
status, token_count and cost on the row. -/
def critical_fix (s : Store) (model_name : String) (job_id : ℕ)
    (token_count : ℕ) : Store :=
  let cost := calculate_cost model_name token_count
  set_row s job_id (fun j =>
    { j with status := "completed", token_count := token_count, cost := cost })

/-- Result of one `process_document` task: the store and limiter after
the task, and the boolean the task returns. -/
structure DocResult where
  store : Store
  limiter : RateLimiter
  success : Bool
  deriving DecidableEq

/-- Model of `ProcessingThread.process_document` (src/ui/main_window.py
lines 94-162).  `stop_pre` and `stop_post` are the values of the cooperative
stop flag observed at the check before the provider call (line 97) and
at the check right after it (line 119).  On success the response is
persisted through `update_response`, then the CRITICAL FIX UPDATE runs,
then the request is recorded in the limiter (line 146).  On a provider
exception the error text is persisted as the response with zero token
count (lines 149-162) and the task reports failure without raising. -/
def process_document (model_name : String) (provider : Provider)
    (stop_pre stop_post : Bool) (now : ℤ) (st : Store) (rl : RateLimiter)
    (job : Job) : DocResult :=
  if stop_pre then ⟨st, rl, false⟩
  else
    match provider job with
    | .err e =>
      ⟨update_response st job.id ("Error processing: " ++ e) 0, rl, false⟩
    | .ok response token_count =>
      let response := if isBlank response then no_response_placeholder
                      else response
      if stop_post then ⟨st, rl, false⟩
      else
        let st1 := update_response st job.id response token_count
        let st2 := critical_fix st1 model_name job.id token_count
        ⟨st2, rl.add_request now token_count, true⟩

/-- Final state of one dispatcher run
(`ProcessingThread.process_batch`): the loop either drains the batch
(Completed, line 237), stops on the cooperative flag (Stopped, line
235), or dies on an exception of the driving loop itself (Failed, line
241). -/
inductive RunState
  | Running
  | Completed
  | Stopped
  | Failed
  deriving DecidableEq

/-- Value of the cooperative stop flag at the `c`-th observation point:
`ProcessingThread.stop` flips the flag once, at some point modelled by
the threshold `stop_at`; the flag stays true from then on. -/
def stop_flag (stop_at : Option ℕ) (c : ℕ) : Bool :=
  match stop_at with
  | none => false
  | some t => decide (t ≤ c)

/-- Result of one dispatcher run. -/
structure RunResult where
  store : Store
  limiter : RateLimiter
  state : RunState
  deriving DecidableEq

/-- The driving loop of `ProcessingThread.process_batch`
(src/ui/main_window.py lines 190-238) under the sequential schedule:
every admitted task runs to completion before the next admission (the
asyncio interleaving in which each provider call resolves immediately).
The stop flag is observed at the loop-head admission check (counter
`c`), at the pre-call check of the task (`c + 1`, line 97) and at the
post-call check (`c + 2`, line 119).  After the loop the run reports
Stopped when the flag is set and Completed otherwise (lines 234-237). -/
def run_jobs (model_name : String) (provider : Provider)
    (stop_at : Option ℕ) (now : ℤ) :
    Store → RateLimiter → List Job → ℕ → RunResult
  | st, rl, [], c =>
    ⟨st, rl, if stop_flag stop_at c then .Stopped else .Completed⟩
  | st, rl, job :: rest, c =>
    if stop_flag stop_at c then ⟨st, rl, .Stopped⟩
    else
      let r := process_document model_name provider
        (stop_flag stop_at (c + 1)) (stop_flag stop_at (c + 2)) now st rl job
      run_jobs model_name provider stop_at now r.store r.limiter rest (c + 3)

/-- The same loop with the stop flag never set: processes every job in
admission order. -/
def process_all (model_name : String) (provider : Provider) (now : ℤ) :
    Store → RateLimiter → List Job → Store × RateLimiter
  | st, rl, [] => (st, rl)
  | st, rl, job :: rest =>
    let r := process_document model_name provider false false now st rl job
    process_all model_name provider now r.store r.limiter rest

/-- Net effect of processing one job on its own row, given the row it
had before the run: the error path of `process_document` writes the
error text with zero tokens, the success path persists the (possibly
placeholder-substituted) response and then the CRITICAL FIX recomputes
token count and cost from the thread model name. -/
def job_effect (model_name : String) (provider : Provider) (job row : Job) :
    Job :=
  match provider job with
  | .err e =>
    { row with response := some ("Error processing: " ++ e),
               token_count := 0,
               cost := calculate_cost row.model_name 0,
               status := "completed" }
  | .ok r t =>
    let r' := if isBlank r then no_response_placeholder else r
    { row with response := some r', token_count := t,
               cost := calculate_cost model_name t, status := "completed" }

/-- Phase of one in-flight asyncio task of the dispatcher. -/
inductive Phase
  | entered
  | responded (response : String) (token_count : ℕ)
  | resolved (success : Bool)
  deriving DecidableEq

/-- State of one dispatcher run for the interleaved small-step
semantics of `ProcessingThread.process_batch`. -/
structure DispatchState where
  store : Store
  limiter : RateLimiter
  pending : List Job
  active : List (Job × Phase)
  processed : ℕ
  should_stop : Bool
  now : ℤ
  deriving DecidableEq

/-- Small-step semantics of the driving loop of
`ProcessingThread.process_batch` (src/ui/main_window.py lines 190-238)
with every asyncio interleaving: `start` is the admission of line
192-196 (guarded only by the concurrency ceiling, the pending list and
the stop flag), `stop_pre` and `stop_post` are the two cooperative stop
checks of `process_document` (lines 97 and 119; the same step covers a
task cancelled while waiting at the call), `call_ok` and `call_err` are
the return of the provider call (line 107 and the except branch),
`persist` is the write-back and limiter recording of lines 123-146,
`discard` is the completion callback of line 196 together with the
result accounting of lines 205-209, `request_stop` is
`ProcessingThread.stop`, and `tick` lets wall-clock time advance. -/
inductive DStep (model_name : String) (provider : Provider)
    (max_concurrent : ℕ) : DispatchState → DispatchState → Prop
  | start (s : DispatchState) (job : Job) (rest : List Job)
      (hp : s.pending = job :: rest)
      (hc : s.active.length < max_concurrent)
      (hs : s.should_stop = false) :
      DStep model_name provider max_concurrent s
        { s with pending := rest, active := s.active ++ [(job, .entered)] }
  | stop_pre (s : DispatchState) (l₁ l₂ : List (Job × Phase)) (job : Job)
      (ha : s.active = l₁ ++ (job, .entered) :: l₂)
      (hs : s.should_stop = true) :
      DStep model_name provider max_concurrent s
        { s with active := l₁ ++ (job, .resolved false) :: l₂ }
  | call_ok (s : DispatchState) (l₁ l₂ : List (Job × Phase)) (job : Job)
      (r : String) (t : ℕ)
      (ha : s.active = l₁ ++ (job, .entered) :: l₂)
      (hs : s.should_stop = false)
      (hp : provider job = .ok r t) :
      DStep model_name provider max_concurrent s
        { s with active := l₁ ++ (job, .responded r t) :: l₂ }
  | call_err (s : DispatchState) (l₁ l₂ : List (Job × Phase)) (job : Job)
      (e : String)
      (ha : s.active = l₁ ++ (job, .entered) :: l₂)
      (hs : s.should_stop = false)
      (hp : provider job = .err e) :
      DStep model_name provider max_concurrent s
        { s with
          store := update_response s.store job.id ("Error processing: " ++ e) 0,
          active := l₁ ++ (job, .resolved false) :: l₂ }
  | stop_post (s : DispatchState) (l₁ l₂ : List (Job × Phase)) (job : Job)
      (r : String) (t : ℕ)
      (ha : s.active = l₁ ++ (job, .responded r t) :: l₂)
      (hs : s.should_stop = true) :
      DStep model_name provider max_concurrent s
        { s with active := l₁ ++ (job, .resolved false) :: l₂ }
  | persist (s : DispatchState) (l₁ l₂ : List (Job × Phase)) (job : Job)
      (r : String) (t : ℕ)
      (ha : s.active = l₁ ++ (job, .responded r t) :: l₂)
      (hs : s.should_stop = false) :
      DStep model_name provider max_concurrent s
        { s with
          store := critical_fix
            (update_response s.store job.id
              (if isBlank r then no_response_placeholder else r) t)
            model_name job.id t,
          limiter := s.limiter.add_request s.now t,
          active := l₁ ++ (job, .resolved true) :: l₂ }
  | discard (s : DispatchState) (l₁ l₂ : List (Job × Phase)) (job : Job)
      (ok : Bool)
      (ha : s.active = l₁ ++ (job, .resolved ok) :: l₂) :
      DStep model_name provider max_concurrent s
        { s with active := l₁ ++ l₂,
                 processed := s.processed + (if ok then 1 else 0) }
  | request_stop (s : DispatchState) :
      DStep model_name provider max_concurrent s
        { s with should_stop := true }
  | tick (s : DispatchState) (d : ℤ) (hd : 0 ≤ d) :
      DStep model_name provider max_concurrent s
        { s with now := s.now + d }

/-- Reachability along dispatcher steps. -/
def DReach (model_name : String) (provider : Provider) (max_concurrent : ℕ) :
    DispatchState → DispatchState → Prop :=
  Relation.ReflTransGen (DStep model_name provider max_concurrent)

/-- Dispatcher state at the start of a run: the pending list fetched
from the store, no in-flight task, flag clear. -/
def initState (st : Store) (rl : RateLimiter) (jobs : List Job) (now : ℤ) :
    DispatchState :=
  { store := st, limiter := rl, pending := jobs, active := [],
    processed := 0, should_stop := false, now := now }

/-! ### Concrete instances used by witnesses and counterexamples -/

/-- Concrete pending row used by witnesses. -/
def wit_row : Job :=
  { id := 1, filename := "a.txt", source_doc := "DOC", response := none,
    model_name := "o3-mini", token_count := 0, cost := 0,
    status := "pending", error := none, batch_id := 1, row_index := 0 }

/-- Concrete one-row store used by witnesses. -/
def wit_store : Store := { jobs := [wit_row], next_id := 2 }

/-- Provider used by the C6 witness: fails on batch row 2, succeeds
elsewhere. -/
def c6_provider : Provider := fun j =>
  if j.row_index == 2 then .err "connection error" else .ok "OK" 10

/-- Three-document batch used by the C6 witness. -/
def c6_store : Store :=
  (add_batch { jobs := [], next_id := 1 }
    [{ filename := "a.txt", content := "A" },
     { filename := "b.txt", content := "B" },
     { filename := "c.txt", content := "C" }] "o3-mini").1

/-- The pending jobs of the C6 witness batch. -/
def c6_jobs : List Job := get_pending_jobs c6_store 1

/-- The batch row 2 job of the C6 witness. -/
def c6_job2 : Job :=
  { id := 3, filename := "c.txt", source_doc := "C", response := none,
    model_name := "o3-mini", token_count := 0, cost := 0,
    status := "pending", error := none, batch_id := 1, row_index := 2 }

/-- Provider used by the C8 witness: always succeeds. -/
def c8_provider : Provider := fun _ => .ok "OK" 10

/-- One-document batch used by the C2 counterexample. -/
def c2_store : Store :=
  (add_batch { jobs := [], next_id := 1 }
    [{ filename := "a.txt", content := "DOC" }] "o1").1

/-- Two-document batch used for C1: requests_per_minute is 1, so after
the first job is recorded the window is saturated. -/
def c1_store : Store :=
  (add_batch { jobs := [], next_id := 1 }
    [{ filename := "a.txt", content := "A" },
     { filename := "b.txt", content := "B" }] "o1").1

/-- The pending jobs of the C1 batch. -/
def c1_jobs : List Job := get_pending_jobs c1_store 1

/-- Dispatcher state right after the first C1 job was processed and
recorded in the limiter. -/
def c1_mid : Store × RateLimiter :=
  process_all "o1" c8_provider 0 c1_store (RateLimiter.fresh 1 30000)
    (c1_jobs.take 1)

/-! ### Store lemmas -/

theorem find?_ext {α : Type} (p q : α → Bool) (l : List α)
    (h : ∀ a, p a = q a) : l.find? p = l.find? q := by
  induction l with
  | nil => rfl
  | cons a l ih =>
    simp only [List.find?]
    rw [h a]
    cases q a with
    | true => rfl
    | false => exact ih

theorem find?_map_id_preserving (l : List Job) (i i' : ℕ) (f : Job → Job)
    (hf : ∀ j, (f j).id = j.id) :
    (l.map (fun j => if j.id == i then f j else j)).find?
        (fun j => j.id == i') =
      (l.find? (fun j => j.id == i')).map
        (fun j => if j.id == i then f j else j) := by
  rw [List.find?_map]
  congr 1
  apply find?_ext
  intro j
  show ((if j.id == i then f j else j).id == i') = (j.id == i')
  by_cases h : (j.id == i) = true
  · rw [if_pos h, hf]
  · rw [if_neg h]

theorem rowById_set_row_ne (s : Store) (i i' : ℕ) (f : Job → Job)
    (hf : ∀ j, (f j).id = j.id) (hne : i' ≠ i) :
    rowById (set_row s i f) i' = rowById s i' := by
  unfold rowById set_row
  rw [find?_map_id_preserving s.jobs i i' f hf]
  cases hfind : s.jobs.find? (fun j => j.id == i') with
  | none => rfl
  | some j =>
    have hj := List.find?_some hfind
    have hnp : ¬ j.id = i := by
      simp only [beq_iff_eq] at hj
      omega
    simp [hnp]

theorem rowById_set_row_self (s : Store) (i : ℕ) (f : Job → Job)
    (hf : ∀ j, (f j).id = j.id) :
    rowById (set_row s i f) i = (rowById s i).map f := by
  unfold rowById set_row
  rw [find?_map_id_preserving s.jobs i i f hf]
  cases hfind : s.jobs.find? (fun j => j.id == i) with
  | none => rfl
  | some j =>
    have hj := List.find?_some hfind
    have hp : j.id = i := by simpa using hj
    simp [hp]

theorem set_row_set_row (s : Store) (i : ℕ) (f g : Job → Job)
    (hf : ∀ j, (f j).id = j.id) :
    set_row (set_row s i f) i g = set_row s i (fun j => g (f j)) := by
  unfold set_row
  simp only [List.map_map]
  congr 1
  apply List.map_congr_left
  intro j _
  show (fun j => if j.id == i then g j else j)
      ((fun j => if j.id == i then f j else j) j) =
    if j.id == i then g (f j) else j
  by_cases h : (j.id == i) = true
  · simp only [if_pos h]
    have : ((f j).id == i) = true := by rw [hf]; exact h
    simp only [if_pos this]
  · simp only [if_neg h]

theorem update_response_absent (s : Store) (i : ℕ) (r : String) (t : ℕ)
    (h : rowById s i = none) : update_response s i r t = s := by
  unfold update_response
  rw [h]

theorem update_response_present (s : Store) (i : ℕ) (r : String) (t : ℕ)
    (row : Job) (h : rowById s i = some row) :
    update_response s i r t = set_row s i (fun j =>
      { j with response := some r, token_count := t,
               cost := calculate_cost row.model_name t,
               status := "completed" }) := by
  unfold update_response
  rw [h]

theorem rowById_update_response_ne (s : Store) (i i' : ℕ) (r : String)
    (t : ℕ) (hne : i' ≠ i) :
    rowById (update_response s i r t) i' = rowById s i' := by
  cases h : rowById s i with
  | none => rw [update_response_absent s i r t h]
  | some row =>
    rw [update_response_present s i r t row h]
    exact rowById_set_row_ne s i i'
      (fun j => { j with response := some r, token_count := t,
                         cost := calculate_cost row.model_name t,
                         status := "completed" }) (fun j => rfl) hne

theorem rowById_update_response_self (s : Store) (i : ℕ) (r : String)
    (t : ℕ) (row : Job) (h : rowById s i = some row) :
    rowById (update_response s i r t) i =
      some { row with response := some r, token_count := t,
                      cost := calculate_cost row.model_name t,
                      status := "completed" } := by
  rw [update_response_present s i r t row h,
      rowById_set_row_self s i
        (fun j => { j with response := some r, token_count := t,
                           cost := calculate_cost row.model_name t,
                           status := "completed" }) (fun j => rfl), h]
  rfl

theorem rowById_critical_fix_ne (s : Store) (m : String) (i i' : ℕ)
    (t : ℕ) (hne : i' ≠ i) :
    rowById (critical_fix s m i t) i' = rowById s i' := by
  unfold critical_fix
  exact rowById_set_row_ne s i i'
    (fun j => { j with status := "completed", token_count := t,
                       cost := calculate_cost m t }) (fun j => rfl) hne

theorem rowById_critical_fix_self (s : Store) (m : String) (i : ℕ) (t : ℕ) :
    rowById (critical_fix s m i t) i =
      (rowById s i).map (fun j =>
        { j with status := "completed", token_count := t,
                 cost := calculate_cost m t }) := by
  unfold critical_fix
  exact rowById_set_row_self s i
    (fun j => { j with status := "completed", token_count := t,
                       cost := calculate_cost m t }) (fun j => rfl)

theorem update_response_twice (s : Store) (job_id : ℕ) (r₁ r₂ : String)
    (t₁ t₂ : ℕ) :
    update_response (update_response s job_id r₁ t₁) job_id r₂ t₂ =
      update_response s job_id r₂ t₂ := by
  cases h : rowById s job_id with
  | none =>
    rw [update_response_absent s job_id r₁ t₁ h]
  | some row =>
    have h1 := update_response_present s job_id r₁ t₁ row h
    have hrow1 := rowById_update_response_self s job_id r₁ t₁ row h
    rw [update_response_present _ job_id r₂ t₂ _ hrow1, h1,
        set_row_set_row s job_id
          (fun j => { j with response := some r₁, token_count := t₁,
                             cost := calculate_cost row.model_name t₁,
                             status := "completed" }) _ (fun j => rfl),
        update_response_present s job_id r₂ t₂ row h]

theorem calculate_cost_zero (m : String) : calculate_cost m 0 = 0 := by
  simp [calculate_cost]

theorem calculate_cost_formula (m : String) (t : ℕ) :
    calculate_cost m t =
      (t : ℚ) * (7 / 10) / 1000000 * (cost_rates (model_key m)).1 +
      (t : ℚ) * (3 / 10) / 1000000 * (cost_rates (model_key m)).2 := by
  unfold calculate_cost
  norm_num

/-- C3: for an existing job, `update_response` writes response,
token_count, the cost derived from the job model name and the token
count by the per-million-token pricing table with the fixed 70/30
input/output split, and status completed, in one atomic unit (one pure
store update that rewrites exactly the matching row and no other); and
running `update_response` twice on the same job id leaves exactly the
state of the second call. -/
theorem C3_update_response_atomic (s : Store) (job_id : ℕ)
    (r₁ r₂ : String) (t₁ t₂ : ℕ) (row : Job)
    (h : rowById s job_id = some row) :
    (rowById (update_response s job_id r₂ t₂) job_id =
       some { row with response := some r₂, token_count := t₂,
                       cost := calculate_cost row.model_name t₂,
                       status := "completed" }) ∧
    (calculate_cost row.model_name t₂ =
       (t₂ : ℚ) * (7 / 10) / 1000000 *
         (cost_rates (model_key row.model_name)).1 +
       (t₂ : ℚ) * (3 / 10) / 1000000 *
         (cost_rates (model_key row.model_name)).2) ∧
    (∀ i, i ≠ job_id →
       rowById (update_response s job_id r₂ t₂) i = rowById s i) ∧
    (update_response (update_response s job_id r₁ t₁) job_id r₂ t₂ =
       update_response s job_id r₂ t₂) := by
  refine ⟨rowById_update_response_self s job_id r₂ t₂ row h,
          calculate_cost_formula row.model_name t₂,
          fun i hi => rowById_update_response_ne s job_id i r₂ t₂ hi,
          update_response_twice s job_id r₁ r₂ t₁ t₂⟩

/-- Witness for C3 at a concrete store. -/
theorem C3_update_response_atomic_witness :
    (rowById wit_store 1 = some wit_row) ∧
    ((rowById (update_response wit_store 1 "B" 8) 1 =
       some { wit_row with response := some "B", token_count := 8,
                           cost := calculate_cost wit_row.model_name 8,
                           status := "completed" }) ∧
     (calculate_cost wit_row.model_name 8 =
        (8 : ℚ) * (7 / 10) / 1000000 *
          (cost_rates (model_key wit_row.model_name)).1 +
        (8 : ℚ) * (3 / 10) / 1000000 *
          (cost_rates (model_key wit_row.model_name)).2) ∧
     (∀ i, i ≠ 1 →
        rowById (update_response wit_store 1 "B" 8) i = rowById wit_store i) ∧
     (update_response (update_response wit_store 1 "A" 5) 1 "B" 8 =
        update_response wit_store 1 "B" 8)) :=
  ⟨by decide, C3_update_response_atomic wit_store 1 "A" "B" 5 8 wit_row
    (by decide)⟩

/-- C10: `update_response` on a job id that is not in the store returns
normally (it is a total function) and leaves the store unchanged: no
row is created or modified. -/
theorem C10_update_response_missing_id (s : Store) (job_id : ℕ)
    (r : String) (t : ℕ) (h : ∀ j ∈ s.jobs, j.id ≠ job_id) :
    update_response s job_id r t = s := by
  apply update_response_absent
  unfold rowById
  rw [List.find?_eq_none]
  intro j hj
  simpa using h j hj

/-- Witness for C10 at a concrete store and an absent id. -/
theorem C10_update_response_missing_id_witness :
    (∀ j ∈ wit_store.jobs, j.id ≠ 99) ∧
    update_response wit_store 99 "X" 7 = wit_store :=
  ⟨by decide, C10_update_response_missing_id wit_store 99 "X" 7 (by decide)⟩

/-! ### add_batch lemmas -/

theorem maxBatchId_cons (j : Job) (l : List Job) :
    maxBatchId (j :: l) = max j.batch_id (maxBatchId l) := rfl

theorem mem_le_maxBatchId (j : Job) (l : List Job) :
    j ∈ l → j.batch_id ≤ maxBatchId l := by
  induction l with
  | nil => intro h; cases h
  | cons a l ih =>
    intro h
    rw [maxBatchId_cons]
    rcases List.mem_cons.mp h with h | h
    · rw [h]; exact le_max_left _ _
    · exact le_trans (ih h) (le_max_right _ _)

theorem maxBatchId_append (l₁ l₂ : List Job) :
    maxBatchId (l₁ ++ l₂) = max (maxBatchId l₁) (maxBatchId l₂) := by
  induction l₁ with
  | nil => simp [maxBatchId]
  | cons a l ih =>
    rw [List.cons_append, maxBatchId_cons, maxBatchId_cons, ih, max_assoc]

/-- C5 (amended): `add_batch` mints `maxBatchId + 1` as the fresh batch
id, strictly greater than the batch id of every stored job, and inserts
exactly one job per document, whose row_index values under the fresh id
are exactly `0 .. N-1` in order; and provided a call inserted at least
one document, every later call returns a strictly greater batch id.
(The proviso is forced by the counterexample: a call with an empty
document list mints an id without recording it, so the next caller
receives the same id.) -/
theorem C5_add_batch_fresh (s : Store) (documents : List Document)
    (m : String) :
    ((add_batch s documents m).2 = maxBatchId s.jobs + 1) ∧
    (∀ j ∈ s.jobs, j.batch_id < (add_batch s documents m).2) ∧
    (((add_batch s documents m).1.jobs.filter
        (fun j => j.batch_id == (add_batch s documents m).2)).map
        Job.row_index = List.range documents.length) ∧
    (documents ≠ [] → ∀ documents₂ m₂,
      (add_batch (add_batch s documents m).1 documents₂ m₂).2 >
        (add_batch s documents m).2) := by
  refine ⟨rfl, ?_, ?_, ?_⟩
  · intro j hj
    have := mem_le_maxBatchId j s.jobs hj
    show j.batch_id < maxBatchId s.jobs + 1
    omega
  · have hjobs : (add_batch s documents m).1.jobs =
        s.jobs ++ documents.enum.map (fun p =>
          ({ id := s.next_id + p.1, filename := p.2.filename,
             source_doc := p.2.content, response := none, model_name := m,
             token_count := 0, cost := 0, status := "pending", error := none,
             batch_id := maxBatchId s.jobs + 1,
             row_index := p.1 } : Job)) := rfl
    have hbid : (add_batch s documents m).2 = maxBatchId s.jobs + 1 := rfl
    rw [hjobs, hbid, List.filter_append]
    have hold : s.jobs.filter
        (fun j => j.batch_id == maxBatchId s.jobs + 1) = [] := by
      rw [List.filter_eq_nil_iff]
      intro j hj
      have := mem_le_maxBatchId j s.jobs hj
      simp only [beq_iff_eq]
      omega
    rw [hold, List.nil_append, List.filter_map]
    have hnew : documents.enum.filter
        ((fun j : Job => j.batch_id == maxBatchId s.jobs + 1) ∘
          (fun p : ℕ × Document =>
            ({ id := s.next_id + p.1, filename := p.2.filename,
               source_doc := p.2.content, response := none, model_name := m,
               token_count := 0, cost := 0, status := "pending",
               error := none, batch_id := maxBatchId s.jobs + 1,
               row_index := p.1 } : Job))) = documents.enum := by
      apply List.filter_eq_self.mpr
      intro p _
      simp
    rw [hnew, List.map_map]
    have hcomp : (Job.row_index ∘ fun p : ℕ × Document =>
        ({ id := s.next_id + p.1, filename := p.2.filename,
           source_doc := p.2.content, response := none, model_name := m,
           token_count := 0, cost := 0, status := "pending", error := none,
           batch_id := maxBatchId s.jobs + 1, row_index := p.1 } : Job)) =
        Prod.fst := by
      funext p
      rfl
    rw [hcomp, List.enum_map_fst]
  · intro hne documents₂ m₂
    show maxBatchId ((add_batch s documents m).1.jobs) + 1 >
      maxBatchId s.jobs + 1
    have hmem : ∃ j ∈ (add_batch s documents m).1.jobs,
        j.batch_id = maxBatchId s.jobs + 1 := by
      cases documents with
      | nil => exact absurd rfl hne
      | cons d ds =>
        refine ⟨{ id := s.next_id + 0, filename := d.filename,
                  source_doc := d.content, response := none,
                  model_name := m, token_count := 0, cost := 0,
                  status := "pending", error := none,
                  batch_id := maxBatchId s.jobs + 1, row_index := 0 }, ?_, rfl⟩
        show _ ∈ s.jobs ++ List.map _ (d :: ds).enum
        refine List.mem_append_right _ ?_
        refine List.mem_map.mpr ⟨(0, d), ?_, rfl⟩
        simp [List.enum]
    obtain ⟨j, hj, hjid⟩ := hmem
    have := mem_le_maxBatchId j _ hj
    omega

/-- C5 counterexample: a call of `add_batch` with an empty document
list mints a batch id without recording it, so the next caller receives
the very same id — refuting the claim that every issued batch id is
strictly greater than all previously issued ones. -/
theorem C5_batch_id_reuse_counterexample :
    (add_batch { jobs := [], next_id := 1 } [] "o1").2 = 1 ∧
    (add_batch (add_batch { jobs := [], next_id := 1 } [] "o1").1
      [] "o1").2 = 1 := by
  decide

/-- Witness for C5 at a concrete store, with the nonemptiness premise
discharged. -/
theorem C5_add_batch_fresh_witness :
    ((add_batch { jobs := [], next_id := 1 }
        [{ filename := "a.txt", content := "A" }] "o1").2 =
      maxBatchId ([] : List Job) + 1) ∧
    (add_batch (add_batch { jobs := [], next_id := 1 }
        [{ filename := "a.txt", content := "A" }] "o1").1
        [{ filename := "b.txt", content := "B" }] "o3-mini").2 >
      (add_batch { jobs := [], next_id := 1 }
        [{ filename := "a.txt", content := "A" }] "o1").2 :=
  ⟨(C5_add_batch_fresh { jobs := [], next_id := 1 }
      [{ filename := "a.txt", content := "A" }] "o1").1,
   (C5_add_batch_fresh { jobs := [], next_id := 1 }
      [{ filename := "a.txt", content := "A" }] "o1").2.2.2 (by decide)
      [{ filename := "b.txt", content := "B" }] "o3-mini"⟩

/-! ### RateLimiter lemmas -/

theorem dropWhile_lt_eq_filter {α : Type} (key : α → ℤ) (c : ℤ)
    (l : List α) (hs : l.Pairwise (fun a b => key a ≤ key b)) :
    l.dropWhile (fun a => decide (key a < c)) =
      l.filter (fun a => ! decide (key a < c)) := by
  induction l with
  | nil => rfl
  | cons a l ih =>
    rcases List.pairwise_cons.mp hs with ⟨ha, hl⟩
    rw [List.dropWhile_cons, List.filter_cons]
    by_cases h : key a < c
    · rw [if_pos (by simpa using h), if_neg (by simpa using h)]
      exact ih hl
    · rw [if_neg (by simpa using h), if_pos (by simpa using h)]
      congr 1
      symm
      apply List.filter_eq_self.mpr
      intro b hb
      have := ha b hb
      simp only [Bool.not_eq_eq_eq_not, Bool.not_true, decide_eq_false_iff_not]
      omega

theorem dropWhile_eq_self_of_false {α : Type} (p : α → Bool) (l : List α)
    (h : ∀ a ∈ l, p a = false) : l.dropWhile p = l := by
  cases l with
  | nil => rfl
  | cons a l =>
    rw [List.dropWhile_cons, h a (List.mem_cons_self a l)]
    simp

theorem dropWhile_replicate_true {α : Type} (p : α → Bool) (a : α) (n : ℕ)
    (h : p a = true) : (List.replicate n a).dropWhile p = [] := by
  induction n with
  | zero => rfl
  | succ k ih =>
    rw [List.replicate_succ, List.dropWhile_cons, h]
    simpa using ih

theorem record_n_state (rpm tpm : ℕ) (s : ℤ) (t : ℕ) (R : ℕ) :
    record_n (RateLimiter.fresh rpm tpm) s t R =
      { requests_per_minute := rpm, tokens_per_minute := tpm,
        request_timestamps := List.replicate R s,
        token_usage := List.replicate R (s, t) } := by
  induction R with
  | zero => rfl
  | succ k ih =>
    rw [record_n, ih]
    have h1 : (List.replicate (k + 1) s).dropWhile
        (fun ts => decide (ts < s - 60)) = List.replicate (k + 1) s :=
      dropWhile_eq_self_of_false _ _ (fun x hx => by
        have hx' := List.eq_of_mem_replicate hx
        subst hx'
        simp only [decide_eq_false_iff_not]
        omega)
    have h2 : (List.replicate (k + 1) (s, t)).dropWhile
        (fun e => decide (e.1 < s - 60)) = List.replicate (k + 1) (s, t) :=
      dropWhile_eq_self_of_false _ _ (fun x hx => by
        have hx' := List.eq_of_mem_replicate hx
        subst hx'
        simp only [decide_eq_false_iff_not]
        omega)
    unfold RateLimiter.add_request RateLimiter.cleanup_old_entries
      RateLimiter.window
    simp only [← List.replicate_succ']
    rw [h1, h2]

/-- C4: `can_make_request` first purges entries strictly older than
`now - 60` (on a time-ordered window the popleft loop removes exactly
those entries), then denies exactly when the remaining request count
already reached `requests_per_minute` or the remaining token usage plus
the estimate exceeds `tokens_per_minute`; after `R` recorded requests of
`t` tokens in the same instant it denies a request of `t` tokens as soon
as `R + 1 > requests_per_minute` or `(R + 1) * t > tokens_per_minute`,
and admits again once the recorded entries age past the window. -/
theorem C4_can_make_request_window (rl : RateLimiter) (now : ℤ) (est : ℕ)
    (hs1 : rl.request_timestamps.Pairwise (· ≤ ·))
    (hs2 : rl.token_usage.Pairwise (fun a b => a.1 ≤ b.1))
    (rpm tpm R t : ℕ) (s now' : ℤ)
    (hage : s < now' - 60) (hrpm : 1 ≤ rpm) (htpm : t ≤ tpm) :
    (rl.can_make_request now est = false ↔
      rl.requests_per_minute ≤
        (rl.request_timestamps.filter
          (fun ts => ! decide (ts < now - 60))).length ∨
      rl.tokens_per_minute <
        ((rl.token_usage.filter
          (fun e => ! decide (e.1 < now - 60))).map Prod.snd).sum + est) ∧
    ((rpm < R + 1 ∨ tpm < (R + 1) * t) →
      (record_n (RateLimiter.fresh rpm tpm) s t R).can_make_request s t
        = false) ∧
    ((record_n (RateLimiter.fresh rpm tpm) s t R).can_make_request now' t
      = true) := by
  refine ⟨?_, ?_, ?_⟩
  · unfold RateLimiter.can_make_request RateLimiter.cleanup_old_entries
      RateLimiter.window
    have e1 := dropWhile_lt_eq_filter (fun a : ℤ => a) (now - 60)
      rl.request_timestamps hs1
    have e2 := dropWhile_lt_eq_filter (fun a : ℤ × ℕ => a.1) (now - 60)
      rl.token_usage hs2
    rw [e1, e2]
    by_cases h1 : rl.requests_per_minute ≤
        (rl.request_timestamps.filter (fun a => ! decide (a < now - 60))).length
    · simp [h1]
    · by_cases h2 : rl.tokens_per_minute <
          ((rl.token_usage.filter
            (fun e => ! decide (e.1 < now - 60))).map Prod.snd).sum + est
      · simp [h1, h2]
      · simp [h1, h2]
  · intro h
    rw [record_n_state]
    unfold RateLimiter.can_make_request RateLimiter.cleanup_old_entries
      RateLimiter.window
    have h1 : (List.replicate R s).dropWhile
        (fun ts => decide (ts < s - 60)) = List.replicate R s :=
      dropWhile_eq_self_of_false _ _ (fun x hx => by
        have hx' := List.eq_of_mem_replicate hx
        subst hx'
        simp only [decide_eq_false_iff_not]
        omega)
    have h2 : (List.replicate R (s, t)).dropWhile
        (fun e => decide (e.1 < s - 60)) = List.replicate R (s, t) :=
      dropWhile_eq_self_of_false _ _ (fun x hx => by
        have hx' := List.eq_of_mem_replicate hx
        subst hx'
        simp only [decide_eq_false_iff_not]
        omega)
    simp only [h1, h2, List.length_replicate, List.map_replicate,
      List.sum_replicate, smul_eq_mul]
    rcases h with h | h
    · rw [if_pos (by omega)]
    · by_cases hA : rpm ≤ R
      · rw [if_pos hA]
      · have hexp : (R + 1) * t = R * t + t := by ring
        rw [if_neg hA, if_pos (by omega)]
  · rw [record_n_state]
    unfold RateLimiter.can_make_request RateLimiter.cleanup_old_entries
      RateLimiter.window
    have h1 : (List.replicate R s).dropWhile
        (fun ts => decide (ts < now' - 60)) = [] :=
      dropWhile_replicate_true _ _ _ (by
        simp only [decide_eq_true_eq]
        omega)
    have h2 : (List.replicate R (s, t)).dropWhile
        (fun e => decide (e.1 < now' - 60)) = [] :=
      dropWhile_replicate_true _ _ _ (by
        simp only [decide_eq_true_eq]
        omega)
    simp only [h1, h2, List.length_nil, List.map_nil, List.sum_nil]
    rw [if_neg (by omega), if_neg (by omega)]

/-- Witness for C4 at a concrete window state. -/
theorem C4_can_make_request_window_witness :
    (([0, 30] : List ℤ).Pairwise (· ≤ ·) ∧
     ([((0 : ℤ), (100 : ℕ)), (30, 200)]).Pairwise (fun a b => a.1 ≤ b.1) ∧
     ((0 : ℤ) < 100 - 60) ∧ (1 ≤ 2) ∧ (400 ≤ 1000)) ∧
    (((⟨2, 5000, [0, 30], [(0, 100), (30, 200)]⟩ :
        RateLimiter).can_make_request 50 1000 = false) ↔
      2 ≤ (([0, 30] : List ℤ).filter
          (fun ts => ! decide (ts < 50 - 60))).length ∨
      5000 <
        ((([((0 : ℤ), (100 : ℕ)), (30, 200)]).filter
          (fun e => ! decide (e.1 < 50 - 60))).map Prod.snd).sum + 1000) ∧
    ((2 < 2 + 1 ∨ 1000 < (2 + 1) * 400) →
      (record_n (RateLimiter.fresh 2 1000) 0 400 2).can_make_request 0 400
        = false) ∧
    ((record_n (RateLimiter.fresh 2 1000) 0 400 2).can_make_request 100 400
      = true) :=
  ⟨⟨by decide, by decide, by decide, by decide, by decide⟩,
   C4_can_make_request_window ⟨2, 5000, [0, 30], [(0, 100), (30, 200)]⟩
     50 1000 (by decide) (by decide) 2 1000 2 400 0 100 (by decide)
     (by decide) (by decide)⟩

/-- C9: admission is antitone in the token estimate: in a fixed window
state, if `can_make_request` admits an estimate `t` then it admits every
estimate `t' ≤ t`. -/
theorem C9_can_make_request_antitone (rl : RateLimiter) (now : ℤ)
    (t t' : ℕ) (h : rl.can_make_request now t = true) (h' : t' ≤ t) :
    rl.can_make_request now t' = true := by
  unfold RateLimiter.can_make_request at h ⊢
  by_cases h1 : (rl.cleanup_old_entries now).request_timestamps.length ≥
      rl.requests_per_minute
  · rw [if_pos h1] at h
    exact absurd h (by simp)
  · rw [if_neg h1] at h ⊢
    by_cases h2 : ((rl.cleanup_old_entries now).token_usage.map
        Prod.snd).sum + t > rl.tokens_per_minute
    · rw [if_pos h2] at h
      exact absurd h (by simp)
    · rw [if_neg (by omega)]

/-- Witness for C9 at a concrete window state. -/
theorem C9_can_make_request_antitone_witness :
    ((⟨5, 1000, [0], [(0, 300)]⟩ : RateLimiter).can_make_request 10 700
       = true) ∧ (200 ≤ 700) ∧
    ((⟨5, 1000, [0], [(0, 300)]⟩ : RateLimiter).can_make_request 10 200
       = true) :=
  ⟨by decide, by decide,
   C9_can_make_request_antitone ⟨5, 1000, [0], [(0, 300)]⟩ 10 700 200
     (by decide) (by decide)⟩

/-! ### Dispatcher run lemmas -/

theorem process_document_stop_pre (m : String) (p : Provider) (b : Bool)
    (now : ℤ) (st : Store) (rl : RateLimiter) (job : Job) :
    process_document m p true b now st rl job = ⟨st, rl, false⟩ := rfl

theorem process_document_err (m : String) (p : Provider) (b : Bool)
    (now : ℤ) (st : Store) (rl : RateLimiter) (job : Job) (e : String)
    (hp : p job = .err e) :
    process_document m p false b now st rl job =
      ⟨update_response st job.id ("Error processing: " ++ e) 0, rl,
       false⟩ := by
  unfold process_document
  rw [hp]
  rfl

theorem process_document_ok_stop (m : String) (p : Provider) (now : ℤ)
    (st : Store) (rl : RateLimiter) (job : Job) (r : String) (t : ℕ)
    (hp : p job = .ok r t) :
    process_document m p false true now st rl job = ⟨st, rl, false⟩ := by
  unfold process_document
  rw [hp]
  rfl

theorem process_document_ok (m : String) (p : Provider) (now : ℤ)
    (st : Store) (rl : RateLimiter) (job : Job) (r : String) (t : ℕ)
    (hp : p job = .ok r t) :
    process_document m p false false now st rl job =
      ⟨critical_fix
        (update_response st job.id
          (if isBlank r then no_response_placeholder else r) t)
        m job.id t,
       rl.add_request now t, true⟩ := by
  unfold process_document
  rw [hp]
  rfl

theorem doc_frame (m : String) (p : Provider) (a b : Bool) (now : ℤ)
    (st : Store) (rl : RateLimiter) (job : Job) (i : ℕ)
    (hi : i ≠ job.id) :
    rowById (process_document m p a b now st rl job).store i =
      rowById st i := by
  cases a with
  | true => rfl
  | false =>
    cases hp : p job with
    | err e =>
      rw [process_document_err m p b now st rl job e hp]
      exact rowById_update_response_ne st job.id i _ 0 hi
    | ok r t =>
      cases b with
      | true => rw [process_document_ok_stop m p now st rl job r t hp]
      | false =>
        rw [process_document_ok m p now st rl job r t hp]
        show rowById (critical_fix
          (update_response st job.id
            (if isBlank r then no_response_placeholder else r) t)
          m job.id t) i = rowById st i
        rw [rowById_critical_fix_ne _ _ _ _ _ hi,
            rowById_update_response_ne _ _ _ _ _ hi]

theorem doc_effect (m : String) (p : Provider) (now : ℤ) (st : Store)
    (rl : RateLimiter) (job row : Job) (h : rowById st job.id = some row) :
    rowById (process_document m p false false now st rl job).store job.id =
      some (job_effect m p job row) := by
  unfold job_effect
  cases hp : p job with
  | err e =>
    rw [process_document_err m p false now st rl job e hp]
    exact rowById_update_response_self st job.id _ 0 row h
  | ok r t =>
    rw [process_document_ok m p now st rl job r t hp]
    show rowById (critical_fix
      (update_response st job.id
        (if isBlank r then no_response_placeholder else r) t)
      m job.id t) job.id = _
    rw [rowById_critical_fix_self,
        rowById_update_response_self st job.id _ t row h]
    rfl

theorem process_all_frame (m : String) (p : Provider) (now : ℤ) :
    ∀ (jobs : List Job) (st : Store) (rl : RateLimiter) (i : ℕ),
      (∀ j ∈ jobs, j.id ≠ i) →
      rowById (process_all m p now st rl jobs).1 i = rowById st i := by
  intro jobs
  induction jobs with
  | nil => intro st rl i _; rfl
  | cons job rest ih =>
    intro st rl i h
    show rowById (process_all m p now
      (process_document m p false false now st rl job).store
      (process_document m p false false now st rl job).limiter rest).1 i = _
    rw [ih _ _ i (fun j hj => h j (List.mem_cons_of_mem _ hj)),
        doc_frame m p false false now st rl job i
          (Ne.symm (h job (List.mem_cons_self job rest)))]

theorem process_all_effect (m : String) (p : Provider) (now : ℤ) :
    ∀ (jobs : List Job) (st : Store) (rl : RateLimiter) (j row : Job),
      (jobs.map Job.id).Nodup → j ∈ jobs → rowById st j.id = some row →
      rowById (process_all m p now st rl jobs).1 j.id =
        some (job_effect m p j row) := by
  intro jobs
  induction jobs with
  | nil => intro st rl j row _ hj; cases hj
  | cons job rest ih =>
    intro st rl j row hnd hj hrow
    have hnd' : (job.id :: rest.map Job.id).Nodup := by simpa using hnd
    have h1 : job.id ∉ rest.map Job.id := (List.nodup_cons.mp hnd').1
    have h2 : (rest.map Job.id).Nodup := (List.nodup_cons.mp hnd').2
    show rowById (process_all m p now
      (process_document m p false false now st rl job).store
      (process_document m p false false now st rl job).limiter rest).1 j.id
      = _
    rcases List.mem_cons.mp hj with rfl | hj'
    · have hrest : ∀ k ∈ rest, k.id ≠ j.id := by
        intro k hk he
        exact h1 (he ▸ List.mem_map_of_mem Job.id hk)
      rw [process_all_frame m p now rest _ _ _ hrest]
      exact doc_effect m p now st rl j row hrow
    · have hne : job.id ≠ j.id := by
        intro he
        exact h1 (he ▸ List.mem_map_of_mem Job.id hj')
      have hrow' : rowById
          (process_document m p false false now st rl job).store j.id =
          some row := by
        rw [doc_frame m p false false now st rl job j.id (Ne.symm hne)]
        exact hrow
      exact ih _ _ j row h2 hj' hrow'

theorem run_jobs_none (m : String) (p : Provider) (now : ℤ) :
    ∀ (jobs : List Job) (st : Store) (rl : RateLimiter) (c : ℕ),
      run_jobs m p none now st rl jobs c =
        ⟨(process_all m p now st rl jobs).1,
         (process_all m p now st rl jobs).2, .Completed⟩ := by
  intro jobs
  induction jobs with
  | nil => intro st rl c; rfl
  | cons job rest ih =>
    intro st rl c
    show run_jobs m p none now
      (process_document m p false false now st rl job).store
      (process_document m p false false now st rl job).limiter rest (c + 3)
      = _
    rw [ih]
    rfl

theorem stop_flag_some (t c : ℕ) :
    stop_flag (some t) c = decide (t ≤ c) := rfl

theorem run_jobs_cons (m : String) (p : Provider) (sa : Option ℕ)
    (now : ℤ) (st : Store) (rl : RateLimiter) (job : Job)
    (rest : List Job) (c : ℕ) :
    run_jobs m p sa now st rl (job :: rest) c =
      if stop_flag sa c then ⟨st, rl, .Stopped⟩
      else run_jobs m p sa now
        (process_document m p (stop_flag sa (c + 1)) (stop_flag sa (c + 2))
          now st rl job).store
        (process_document m p (stop_flag sa (c + 1)) (stop_flag sa (c + 2))
          now st rl job).limiter rest (c + 3) := rfl

theorem run_jobs_stopped (m : String) (p : Provider) (now : ℤ) (t : ℕ) :
    ∀ (jobs : List Job) (st : Store) (rl : RateLimiter) (c : ℕ), t ≤ c →
      run_jobs m p (some t) now st rl jobs c = ⟨st, rl, .Stopped⟩ := by
  intro jobs st rl c h
  have hd : stop_flag (some t) c = true := by
    rw [stop_flag_some]
    exact decide_eq_true h
  cases jobs with
  | nil =>
    show (⟨st, rl, if stop_flag (some t) c then .Stopped else .Completed⟩ :
      RunResult) = _
    rw [hd]
    rfl
  | cons job rest =>
    rw [run_jobs_cons, hd]
    rfl

theorem run_jobs_stop_mid (m : String) (p : Provider) (now : ℤ) (t : ℕ) :
    ∀ (jobs : List Job) (st : Store) (rl : RateLimiter) (c : ℕ),
      jobs ≠ [] → t ≤ c + 3 * (jobs.length - 1) →
      ∃ k < jobs.length,
        run_jobs m p (some t) now st rl jobs c =
          ⟨(process_all m p now st rl (jobs.take k)).1,
           (process_all m p now st rl (jobs.take k)).2, .Stopped⟩ := by
  intro jobs
  induction jobs with
  | nil => intro st rl c h _; exact absurd rfl h
  | cons job rest ih =>
    intro st rl c _ hb
    by_cases h0 : t ≤ c
    · exact ⟨0, Nat.succ_pos _, run_jobs_stopped m p now t _ st rl c h0⟩
    · have hflag0 : stop_flag (some t) c = false := by
        rw [stop_flag_some]
        exact decide_eq_false h0
      rw [run_jobs_cons, hflag0, if_neg Bool.false_ne_true]
      by_cases h2 : t ≤ c + 2
      · -- the stop flag is observed inside the head task
        have hrest1 : 1 ≤ rest.length := by
          simp only [List.length_cons] at hb
          omega
        have hstop3 : t ≤ c + 3 := by omega
        by_cases h1 : t ≤ c + 1
        · -- observed at the pre-call check: head job untouched
          have hpre : stop_flag (some t) (c + 1) = true := by
            rw [stop_flag_some]
            exact decide_eq_true h1
          rw [hpre, process_document_stop_pre,
              run_jobs_stopped m p now t rest st rl (c + 3) hstop3]
          exact ⟨0, Nat.succ_pos _, rfl⟩
        · -- observed at the post-call check (t = c + 2)
          have hpre : stop_flag (some t) (c + 1) = false := by
            rw [stop_flag_some]
            exact decide_eq_false h1
          have hpost : stop_flag (some t) (c + 2) = true := by
            rw [stop_flag_some]
            exact decide_eq_true h2
          rw [hpre, hpost]
          cases hp : p job with
          | ok r tk =>
            -- success path: the received response is discarded
            rw [process_document_ok_stop m p now st rl job r tk hp,
                run_jobs_stopped m p now t rest st rl (c + 3) hstop3]
            exact ⟨0, Nat.succ_pos _, rfl⟩
          | err e =>
            -- the error path writes the error response regardless of
            -- the flag, so the head job counts as processed
            rw [process_document_err m p true now st rl job e hp,
                run_jobs_stopped m p now t rest _ rl (c + 3) hstop3]
            refine ⟨1, by omega, ?_⟩
            show _ = (⟨(process_all m p now st rl [job]).1,
              (process_all m p now st rl [job]).2, .Stopped⟩ : RunResult)
            rw [show process_all m p now st rl [job] =
              ((process_document m p false false now st rl job).store,
               (process_document m p false false now st rl job).limiter)
              from rfl]
            rw [process_document_err m p false now st rl job e hp]
      · -- the head job is processed normally
        have hpre : stop_flag (some t) (c + 1) = false := by
          rw [stop_flag_some]
          exact decide_eq_false (by omega)
        have hpost : stop_flag (some t) (c + 2) = false := by
          rw [stop_flag_some]
          exact decide_eq_false h2
        rw [hpre, hpost]
        have hrestne : rest ≠ [] := by
          intro hE
          subst hE
          simp only [List.length_cons, List.length_nil] at hb
          omega
        have hb' : t ≤ (c + 3) + 3 * (rest.length - 1) := by
          have : 1 ≤ rest.length := by
            cases rest with
            | nil => exact absurd rfl hrestne
            | cons a l => simp
          simp only [List.length_cons] at hb
          omega
        obtain ⟨k, hk, heq⟩ := ih
          (process_document m p false false now st rl job).store
          (process_document m p false false now st rl job).limiter
          (c + 3) hrestne hb'
        refine ⟨k + 1, by simpa using hk, ?_⟩
        rw [heq]
        rfl

/-- C6: a provider failure on one job is recovered locally: that job
still ends completed with the error-explaining response text (never
blank) and zero cost, the run is not aborted, every other job whose
provider call succeeds is written its real response, and the batch run
ends in the Completed state. -/
theorem C6_provider_failure_recovered (m : String) (p : Provider)
    (now : ℤ) (st : Store) (rl : RateLimiter) (jobs : List Job)
    (hnd : (jobs.map Job.id).Nodup)
    (j : Job) (hj : j ∈ jobs) (e : String) (hfail : p j = .err e)
    (row : Job) (hrow : rowById st j.id = some row) :
    ((run_jobs m p none now st rl jobs 0).state = .Completed) ∧
    (rowById (run_jobs m p none now st rl jobs 0).store j.id =
      some { row with response := some ("Error processing: " ++ e),
                      token_count := 0, cost := 0,
                      status := "completed" }) ∧
    (("Error processing: " ++ e) ≠ "") ∧
    (∀ j' ∈ jobs, ∀ r t, p j' = .ok r t → isBlank r = false →
      ∀ row', rowById st j'.id = some row' →
      rowById (run_jobs m p none now st rl jobs 0).store j'.id =
        some { row' with response := some r, token_count := t,
                         cost := calculate_cost m t,
                         status := "completed" }) := by
  refine ⟨?_, ?_, ?_, ?_⟩
  · rw [run_jobs_none]
  · rw [run_jobs_none]
    show rowById (process_all m p now st rl jobs).1 j.id = _
    rw [process_all_effect m p now jobs st rl j row hnd hj hrow]
    simp only [job_effect, hfail, calculate_cost_zero]
  · intro hcontra
    have hd := congrArg String.data hcontra
    rw [String.data_append] at hd
    have := List.append_eq_nil.mp hd
    simp at this
  · intro j' hj' r t hok hblank row' hrow'
    rw [run_jobs_none]
    show rowById (process_all m p now st rl jobs).1 j'.id = _
    rw [process_all_effect m p now jobs st rl j' row' hnd hj' hrow']
    simp only [job_effect, hok, hblank, Bool.false_eq_true, if_false]

/-- Witness for C6 at a concrete three-document batch. -/
theorem C6_provider_failure_recovered_witness :
    ((c6_jobs.map Job.id).Nodup ∧ c6_job2 ∈ c6_jobs ∧
     c6_provider c6_job2 = .err "connection error" ∧
     rowById c6_store c6_job2.id = some c6_job2) ∧
    ((run_jobs "o3-mini" c6_provider none 0 c6_store
        (RateLimiter.fresh 30000 1000000) c6_jobs 0).state = .Completed) ∧
    (rowById (run_jobs "o3-mini" c6_provider none 0 c6_store
        (RateLimiter.fresh 30000 1000000) c6_jobs 0).store c6_job2.id =
      some { c6_job2 with
             response := some ("Error processing: " ++ "connection error"),
             token_count := 0, cost := 0, status := "completed" }) :=
  ⟨⟨by decide, by decide, by decide, by decide⟩,
   (C6_provider_failure_recovered "o3-mini" c6_provider 0 c6_store
     (RateLimiter.fresh 30000 1000000) c6_jobs (by decide) c6_job2
     (by decide) "connection error" (by decide) c6_job2 (by decide)).1,
   (C6_provider_failure_recovered "o3-mini" c6_provider 0 c6_store
     (RateLimiter.fresh 30000 1000000) c6_jobs (by decide) c6_job2
     (by decide) "connection error" (by decide) c6_job2 (by decide)).2.1⟩

/-- C8: cancelling a run mid-batch leaves some prefix of the admission
order fully processed and everything else untouched: the run ends
Stopped, the final store is exactly the store of the no-stop run over
the processed prefix (so no completed job is reverted), and every job
past the prefix keeps its row unchanged and still pending. -/
theorem C8_cancellation_frame (m : String) (p : Provider) (now : ℤ)
    (t : ℕ) (st : Store) (rl : RateLimiter) (jobs : List Job)
    (hnd : (jobs.map Job.id).Nodup)
    (hpend : ∀ j ∈ jobs,
      (rowById st j.id).map Job.status = some "pending")
    (hne : jobs ≠ []) (hstop : t ≤ 3 * (jobs.length - 1)) :
    ((run_jobs m p (some t) now st rl jobs 0).state = .Stopped) ∧
    (∃ k < jobs.length,
      (run_jobs m p (some t) now st rl jobs 0).store =
        (process_all m p now st rl (jobs.take k)).1 ∧
      ∀ j ∈ jobs.drop k,
        rowById (run_jobs m p (some t) now st rl jobs 0).store j.id =
          rowById st j.id ∧
        (rowById (run_jobs m p (some t) now st rl jobs 0).store j.id).map
          Job.status = some "pending") := by
  obtain ⟨k, hk, heq⟩ := run_jobs_stop_mid m p now t jobs st rl 0 hne
    (by simpa using hstop)
  refine ⟨by rw [heq], k, hk, by rw [heq], ?_⟩
  intro j hjd
  have hsplit : jobs = jobs.take k ++ jobs.drop k :=
    (List.take_append_drop k jobs).symm
  have hnd' : ((jobs.take k ++ jobs.drop k).map Job.id).Nodup := by
    rw [← hsplit]
    exact hnd
  rw [List.map_append] at hnd'
  have hdisj := (List.nodup_append.mp hnd').2.2
  have hfr : ∀ jt ∈ jobs.take k, jt.id ≠ j.id := by
    intro jt hjt he
    exact hdisj (List.mem_map_of_mem Job.id hjt)
      (he ▸ List.mem_map_of_mem Job.id hjd)
  have hframe : rowById (process_all m p now st rl (jobs.take k)).1 j.id =
      rowById st j.id :=
    process_all_frame m p now (jobs.take k) st rl j.id hfr
  have hjmem : j ∈ jobs := by
    rw [hsplit]
    exact List.mem_append_right _ hjd
  refine ⟨?_, ?_⟩
  · rw [heq]
    exact hframe
  · rw [heq]
    show (rowById (process_all m p now st rl (jobs.take k)).1 j.id).map
      Job.status = some "pending"
    rw [hframe]
    exact hpend j hjmem

/-- Witness for C8: a three-document batch cancelled after the first
job was processed (the stop flag is observed at the pre-call check of
the second job). -/
theorem C8_cancellation_frame_witness :
    ((c6_jobs.map Job.id).Nodup ∧
     (∀ j ∈ c6_jobs,
        (rowById c6_store j.id).map Job.status = some "pending") ∧
     c6_jobs ≠ [] ∧ 4 ≤ 3 * (c6_jobs.length - 1)) ∧
    ((run_jobs "o3-mini" c8_provider (some 4) 0 c6_store
        (RateLimiter.fresh 30000 1000000) c6_jobs 0).state = .Stopped) ∧
    (∃ k < c6_jobs.length,
      (run_jobs "o3-mini" c8_provider (some 4) 0 c6_store
          (RateLimiter.fresh 30000 1000000) c6_jobs 0).store =
        (process_all "o3-mini" c8_provider 0 c6_store
          (RateLimiter.fresh 30000 1000000) (c6_jobs.take k)).1 ∧
      ∀ j ∈ c6_jobs.drop k,
        rowById (run_jobs "o3-mini" c8_provider (some 4) 0 c6_store
            (RateLimiter.fresh 30000 1000000) c6_jobs 0).store j.id =
          rowById c6_store j.id ∧
        (rowById (run_jobs "o3-mini" c8_provider (some 4) 0 c6_store
            (RateLimiter.fresh 30000 1000000) c6_jobs 0).store j.id).map
          Job.status = some "pending") :=
  ⟨⟨by decide, by decide, by decide, by decide⟩,
   C8_cancellation_frame "o3-mini" c8_provider 0 4 c6_store
     (RateLimiter.fresh 30000 1000000) c6_jobs (by decide) (by decide)
     (by decide) (by decide)⟩

/-- C2 (amended): a job whose provider call has already returned a
response when the stop flag is observed at the post-call check does NOT
have that response persisted: the dispatcher discards the received
response and honors the stop with the job row left exactly as it was
(still pending), never in a torn state. -/
theorem C2_stop_discards_received_response (m : String) (p : Provider)
    (now : ℤ) (st : Store) (rl : RateLimiter) (job : Job) (r : String)
    (t : ℕ) (hp : p job = .ok r t) :
    (process_document m p false true now st rl job = ⟨st, rl, false⟩) ∧
    (rowById (process_document m p false true now st rl job).store job.id =
      rowById st job.id) := by
  have h := process_document_ok_stop m p now st rl job r t hp
  exact ⟨h, by rw [h]⟩

/-- Witness for the amended C2 at a concrete job. -/
theorem C2_stop_discards_received_response_witness :
    (c8_provider wit_row = .ok "OK" 10) ∧
    (process_document "o3-mini" c8_provider false true 0 wit_store
       (RateLimiter.fresh 30000 1000000) wit_row =
      ⟨wit_store, RateLimiter.fresh 30000 1000000, false⟩) :=
  ⟨by decide,
   (C2_stop_discards_received_response "o3-mini" c8_provider 0 wit_store
     (RateLimiter.fresh 30000 1000000) wit_row "OK" 10 (by decide)).1⟩

/-- C2 counterexample: the provider call of the only job returns
("OK", 10); the stop flag is observed for the first time at the
post-call check (observation counter 2), i.e. after the response was
received; the run stops with the job still pending and its received
response discarded — refuting the claim that such a job is persisted
as completed before the stop is honored. -/
theorem C2_counterexample :
    (∀ j, c8_provider j = .ok "OK" 10) ∧
    (stop_flag (some 2) 0 = false ∧ stop_flag (some 2) 1 = false ∧
     stop_flag (some 2) 2 = true) ∧
    ((run_jobs "o1" c8_provider (some 2) 0 c2_store
        (RateLimiter.fresh 1000 100000) (get_pending_jobs c2_store 1)
        0).state = .Stopped) ∧
    ((rowById (run_jobs "o1" c8_provider (some 2) 0 c2_store
        (RateLimiter.fresh 1000 100000) (get_pending_jobs c2_store 1)
        0).store 1).map Job.status = some "pending") ∧
    ((rowById (run_jobs "o1" c8_provider (some 2) 0 c2_store
        (RateLimiter.fresh 1000 100000) (get_pending_jobs c2_store 1)
        0).store 1).map Job.response = some none) :=
  ⟨fun j => rfl, ⟨by decide, by decide, by decide⟩, by decide, by decide,
   by decide⟩

/-- C1: the dispatcher loop never consults `can_make_request`.  At the
moment the second job is admitted, the limiter (with
requests_per_minute = 1 and one recorded request) would deny admission,
yet the run proceeds from exactly that limiter state and completes the
second job anyway. -/
theorem C1_admission_ignores_rate_limiter :
    (RateLimiter.can_make_request c1_mid.2 0 1000 = false) ∧
    (run_jobs "o1" c8_provider none 0 c1_store (RateLimiter.fresh 1 30000)
       c1_jobs 0 =
     run_jobs "o1" c8_provider none 0 c1_mid.1 c1_mid.2 (c1_jobs.drop 1)
       3) ∧
    ((rowById (run_jobs "o1" c8_provider none 0 c1_store
        (RateLimiter.fresh 1 30000) c1_jobs 0).store 2).map Job.status =
      some "completed") ∧
    ((run_jobs "o1" c8_provider none 0 c1_store (RateLimiter.fresh 1 30000)
        c1_jobs 0).state = .Completed) :=
  ⟨by decide, rfl, by decide, by decide⟩

/-- C7: along every interleaving of the dispatcher loop, the number of
in-flight tasks never exceeds the configured `max_concurrent`: a new
task is started only while the in-flight set is strictly below the
ceiling, and every other step keeps or shrinks the set. -/
theorem C7_concurrency_bound (m : String) (p : Provider) (mc : ℕ)
    (st : Store) (rl : RateLimiter) (jobs : List Job) (now : ℤ)
    (s : DispatchState)
    (h : DReach m p mc (initState st rl jobs now) s) :
    s.active.length ≤ mc := by
  induction h with
  | refl => simp [initState]
  | tail hreach hstep ih =>
    cases hstep with
    | start job rest hp hc hs =>
      simp only [List.length_append, List.length_cons, List.length_nil]
      omega
    | stop_pre l₁ l₂ job ha hs =>
      rw [ha] at ih
      simp only [List.length_append, List.length_cons] at ih ⊢
      omega
    | call_ok l₁ l₂ job r t ha hs hpv =>
      rw [ha] at ih
      simp only [List.length_append, List.length_cons] at ih ⊢
      omega
    | call_err l₁ l₂ job e ha hs hpv =>
      rw [ha] at ih
      simp only [List.length_append, List.length_cons] at ih ⊢
      omega
    | stop_post l₁ l₂ job r t ha hs =>
      rw [ha] at ih
      simp only [List.length_append, List.length_cons] at ih ⊢
      omega
    | persist l₁ l₂ job r t ha hs =>
      rw [ha] at ih
      simp only [List.length_append, List.length_cons] at ih ⊢
      omega
    | discard l₁ l₂ job ok ha =>
      rw [ha] at ih
      simp only [List.length_append, List.length_cons] at ih ⊢
      omega
    | request_stop => exact ih
    | tick d hd => exact ih

/-- Witness for C7: one admission step from a concrete initial state
keeps the in-flight count within a ceiling of 2. -/
theorem C7_concurrency_bound_witness :
    DReach "o1" c8_provider 2
      (initState c2_store (RateLimiter.fresh 1000 100000) [wit_row] 0)
      { initState c2_store (RateLimiter.fresh 1000 100000) [wit_row] 0 with
        pending := [], active := [] ++ [(wit_row, Phase.entered)] } ∧
    ({ initState c2_store (RateLimiter.fresh 1000 100000) [wit_row] 0 with
       pending := [], active := [] ++ [(wit_row, Phase.entered)] } :
      DispatchState).active.length ≤ 2 := by
  have hstep : DStep "o1" c8_provider 2
      (initState c2_store (RateLimiter.fresh 1000 100000) [wit_row] 0)
      { initState c2_store (RateLimiter.fresh 1000 100000) [wit_row] 0 with
        pending := [], active := [] ++ [(wit_row, Phase.entered)] } := by
    have h := @DStep.start "o1" c8_provider 2
      (initState c2_store (RateLimiter.fresh 1000 100000) [wit_row] 0)
      wit_row [] rfl (by decide) rfl
    simpa using h
  have hreach : DReach "o1" c8_provider 2
      (initState c2_store (RateLimiter.fresh 1000 100000) [wit_row] 0)
      { initState c2_store (RateLimiter.fresh 1000 100000) [wit_row] 0 with
        pending := [], active := [] ++ [(wit_row, Phase.entered)] } :=
    Relation.ReflTransGen.single hstep
  exact ⟨hreach,
    C7_concurrency_bound "o1" c8_provider 2 c2_store
      (RateLimiter.fresh 1000 100000) [wit_row] 0 _ hreach⟩
